import Mathlib

/-!
Shallow embedding of `geomstats/stratified_geometry/graphspace.py`.

Graphs are adjacency matrices with rational entries (the source works with
real-valued backend arrays; exact rationals stand in for them, so "up to
numerical tolerance" becomes exact equality).  A rank-2 input (a single
graph) and a rank-3 input (a batch of graphs) are distinguished by the
`GraphArray` sum type, mirroring the source's `len(shape) < 3` checks.
Python exceptions are modelled by `Except String`.

The file embeds `GraphSpace.permute`, `GraphSpace.belongs`,
`GraphSpaceGeometry.dist`, `GraphSpaceGeometry.geodesic`,
`GraphSpaceGeometry.faq_matching` and `GraphSpaceGeometry.id_matching`
from the source.  The collaborators that live outside the given sources
(`Matrices.mul`, `Matrices.belongs`, `MatricesMetric.dist`,
`MatricesMetric.geodesic`, `gs.linalg.quadratic_assignment`) are modelled
from the spec and marked as such in their doc comments.
-/

open Matrix

deriving instance DecidableEq for Except

/-- A single graph: an `n × n` adjacency matrix over the rationals. -/
abbrev Mat (n : ℕ) := Matrix (Fin n) (Fin n) ℚ

/-- An array argument of the geometry operations: either a single rank-2
adjacency matrix or a rank-3 batch of them. -/
inductive GraphArray (n : ℕ) where
  | single (G : Mat n)
  | batch (Gs : List (Mat n))
deriving DecidableEq

/-- The value of `array.ndim` on a `GraphArray`: 2 for a single graph,
3 for a batch. -/
def GraphArray.ndim {n : ℕ} : GraphArray n → ℕ
  | .single _ => 2
  | .batch _ => 3

/-- A permutation argument: either a single index sequence (the source's
`list(range(nodes))`-style list, one target index per node) or a batch of
such sequences. -/
inductive PermArray (n : ℕ) where
  | single (p : Fin n → Fin n)
  | batch (ps : List (Fin n → Fin n))

/-- The identity index sequence `list(range(self.nodes))` used by
`GraphSpaceGeometry.id_matching`. -/
def idSeq (n : ℕ) : Fin n → Fin n := fun i => i

/-- The 0/1 permutation matrix built in `GraphSpace.permute` by
`gs.array_from_sparse` with ones scattered at the coordinates
`(i, p[i])` for `i` in `0..nodes`. -/
def permMatrix {n : ℕ} (p : Fin n → Fin n) : Mat n :=
  fun i j => if j = p i then 1 else 0

/-- Modelled from the spec: the total space's "associative three-argument
`multiply(A, B, C) -> A·B·C` used for conjugation" (§6); the source calls
`self.total_space.mul(P, G, Pᵗ)` from `geomstats.geometry.matrices`, which
is outside the given sources. -/
def Matrices.mul {n : ℕ} (a b c : Mat n) : Mat n := a * b * c

/-- The shortcut test of `GraphSpace.permute`, line 232 of the source:
`gs.all(gs.array(nodes) == gs.array(p))` compares every entry of the
permutation `p` with the scalar node count `nodes`. -/
def permuteShortcut (n : ℕ) (p : Fin n → Fin n) : Bool :=
  decide (∀ i : Fin n, (p i : ℕ) = n)

/-- The body of `GraphSpace.permute` for one `(graph, permutation)` pair:
if the shortcut test succeeds the graph is returned unchanged, otherwise
the permutation matrix is built and `P · G · Pᵗ` is computed. -/
def permuteSingle (n : ℕ) (G : Mat n) (p : Fin n → Fin n) : Mat n :=
  if permuteShortcut n p then G
  else Matrices.mul (permMatrix p) G (permMatrix p)ᵀ

/-- The loop of `GraphSpace.permute` in batch mode: it enumerates the
permutations and indexes `graph_to_permute[i]` for each; when the list of
permutations is shorter than the batch of graphs the remaining graphs are
silently ignored, and when it is longer the indexing raises `IndexError`. -/
def permuteList (n : ℕ) : List (Mat n) → List (Fin n → Fin n) →
    Except String (List (Mat n))
  | _, [] => .ok []
  | [], _ :: _ => .error "IndexError: list index out of range"
  | G :: Gs, p :: ps =>
    match permuteList n Gs ps with
    | .ok rest => .ok (permuteSingle n G p :: rest)
    | .error e => .error e

/-- `GraphSpace.permute`: a single graph with a single permutation takes the
wrap-and-unwrap path (`result[0]`); a batch of graphs with a batch of
permutations runs the loop; the mixed combinations make the backend calls
(`array_from_sparse` on malformed indices, or `zip` of an int) raise. -/
def GraphSpace.permute (n : ℕ) :
    GraphArray n → PermArray n → Except String (GraphArray n)
  | .single G, .single p => .ok (.single (permuteSingle n G p))
  | .batch Gs, .batch ps =>
    match permuteList n Gs ps with
    | .ok l => .ok (.batch l)
    | .error e => .error e
  | .single _, .batch _ => .error "TypeError: malformed sparse indices"
  | .batch _, .single _ => .error "TypeError: zip argument is not iterable"

/-- A matrix of unconstrained shape, as handed to `belongs`. -/
structure RawMat where
  rows : ℕ
  cols : ℕ
  entries : Matrix (Fin rows) (Fin cols) ℚ

/-- Modelled from the spec: `Matrices.belongs` (the total space's membership
test, from `geomstats.geometry.matrices`, outside the given sources) is a
"shape check plus any structural constraint the total space enforces, e.g.
realness — symmetry is NOT required" (§4.2); for real matrices this is the
check that the shape is `(nodes, nodes)`. -/
def Matrices.belongs (n : ℕ) (M : RawMat) : Bool :=
  decide (M.rows = n) && decide (M.cols = n)

/-- `GraphSpace.belongs`: delegates membership testing to the total space. -/
def GraphSpace.belongs (n : ℕ) (M : RawMat) : Bool :=
  Matrices.belongs n M

/-- View a raw matrix whose shape is `(n, n)` as a `Mat n`. -/
def RawMat.toMat (M : RawMat) (n : ℕ) (h1 : M.rows = n) (h2 : M.cols = n) :
    Mat n :=
  fun i j => M.entries (Fin.cast h1.symm i) (Fin.cast h2.symm j)

/-- View a `Mat n` as a raw matrix of shape `(n, n)`. -/
def Mat.toRaw {n : ℕ} (G : Mat n) : RawMat := ⟨n, n, G⟩

/-- Modelled from the spec: the external combinatorial solver
`gs.linalg.quadratic_assignment(x, y, options=maximize)` (§6) "taking two
equal-shape square matrices and an objective-direction flag (maximize),
returning a permutation (sequence of indices)".  Its algorithm is out of
scope, so the geometry operations are parameterised over it. -/
def QaSolver (n : ℕ) := Mat n → Mat n → (Fin n → Fin n)

/-- `GraphSpaceGeometry.faq_matching`: dispatches on the ranks
`l_base`/`l_obj` of the two inputs; batch-batch pairs positionally (the
source's `zip`), single-single solves one instance, single-batch broadcasts
the base against every target, and batch-single raises the usage
`ValueError`. -/
def GraphSpaceGeometry.faq_matching {n : ℕ} (qa : QaSolver n) :
    GraphArray n → GraphArray n → Except String (PermArray n)
  | .batch As, .batch Bs => .ok (.batch ((As.zip Bs).map fun x => qa x.1 x.2))
  | .single A, .single B => .ok (.single (qa A B))
  | .single A, .batch Bs => .ok (.batch (Bs.map fun y => qa A y))
  | .batch _, .single _ =>
    .error "ValueError: Align a set of graphs to one graphs,Pass the single graphs as base_graph"

/-- `GraphSpaceGeometry.id_matching`: returns the natural ordering
`list(range(self.nodes))`, one copy per target when the target is a batch,
and raises the usage `ValueError` when the base is a batch and the target a
single graph. -/
def GraphSpaceGeometry.id_matching (n : ℕ) :
    GraphArray n → GraphArray n → Except String (PermArray n)
  | .batch _, .batch Bs => .ok (.batch (List.replicate Bs.length (idSeq n)))
  | .single _, .batch Bs => .ok (.batch (List.replicate Bs.length (idSeq n)))
  | .single _, .single _ => .ok (.single (idSeq n))
  | .batch _, .single _ =>
    .error "ValueError: The method can align a set of graphs to one graphs,but the single graphs should be passed as base_graph"

/-- The matcher-selection pattern shared by `dist` (lines 305-311) and
`geodesic` (lines 349-352): `if matcher == "FAQ"` assigns `perm` from
`faq_matching`, `if matcher == "ID"` assigns it from `id_matching`, and any
other name leaves `perm` unassigned so that its first use raises
`UnboundLocalError` before any matching, permutation or metric work. -/
def GraphSpaceGeometry.selectMatcher {n : ℕ} (qa : QaSolver n)
    (matcher : String) (base obj : GraphArray n) :
    Except String (PermArray n) :=
  if matcher = "FAQ" then GraphSpaceGeometry.faq_matching qa base obj
  else if matcher = "ID" then GraphSpaceGeometry.id_matching n base obj
  else .error "UnboundLocalError: local variable referenced before assignment"

/-- Modelled from the spec: the Frobenius distance of the total-space metric
(`MatricesMetric`, outside the given sources; "Frobenius/total-space
metric: the base distance function on the ambient matrix space",
glossary and §4.4). -/
noncomputable def frobDist {n : ℕ} (A B : Mat n) : ℝ :=
  Real.sqrt ((((∑ i, ∑ j, (A i j - B i j) ^ 2) : ℚ) : ℝ))

/-- The result of the total-space metric's `dist`: a scalar for a
single-single call, a vector of distances otherwise. -/
inductive DistRes where
  | scalar (r : ℝ)
  | vec (v : List ℝ)

/-- Modelled from the spec: `MatricesMetric.dist` (outside the given
sources) exposes "`distance(p, q) -> scalar-or-batch`" (§6): the Frobenius
distance, broadcast elementwise when one argument is a batch, paired
positionally when both are batches of equal length. -/
noncomputable def MatricesMetric.dist {n : ℕ} :
    GraphArray n → GraphArray n → Except String DistRes
  | .single A, .single B => .ok (.scalar (frobDist A B))
  | .single A, .batch Bs => .ok (.vec (Bs.map fun b => frobDist A b))
  | .batch As, .single B => .ok (.vec (As.map fun a => frobDist a B))
  | .batch As, .batch Bs =>
    if As.length = Bs.length then
      .ok (.vec ((As.zip Bs).map fun x => frobDist x.1 x.2))
    else .error "ValueError: operands could not be broadcast together"

/-- `GraphSpaceGeometry.dist`: designates the lower-rank input as
`base_graph` and the other as `graph_to_permute` (the `ndim` comparison of
lines 299-304), selects the matcher, permutes `graph_to_permute` by the
matching result, and delegates to the total-space metric's distance. -/
noncomputable def GraphSpaceGeometry.dist {n : ℕ} (qa : QaSolver n)
    (graph_a graph_b : GraphArray n) (matcher : String) :
    Except String DistRes :=
  let pair : GraphArray n × GraphArray n :=
    if graph_b.ndim < graph_a.ndim then (graph_b, graph_a)
    else (graph_a, graph_b)
  match GraphSpaceGeometry.selectMatcher qa matcher pair.1 pair.2 with
  | .error e => .error e
  | .ok perm =>
    match GraphSpace.permute n pair.2 perm with
    | .error e => .error e
    | .ok permuted => MatricesMetric.dist pair.1 permuted

/-- A graph array with real entries, the value of a geodesic curve at one
parameter. -/
inductive GraphArrayR (n : ℕ) where
  | single (G : Matrix (Fin n) (Fin n) ℝ)
  | batch (Gs : List (Matrix (Fin n) (Fin n) ℝ))

/-- Modelled from the spec: the geodesic of the flat total-space metric is
the affine interpolation `t ↦ (1 - t)·A + t·B` between its endpoints
("returning whatever curve representation the total-space metric defines
(typically a function or sampled sequence of interpolated points)", §4.4). -/
noncomputable def lineSeg {n : ℕ} (A B : Mat n) (t : ℝ) :
    Matrix (Fin n) (Fin n) ℝ :=
  fun i j => (1 - t) * (A i j : ℝ) + t * (B i j : ℝ)

/-- Modelled from the spec: `MatricesMetric.geodesic` (outside the given
sources) exposes "`geodesic(p, q) -> curve-constructor`" (§6), broadcast
over batches the same way as the metric's distance. -/
noncomputable def MatricesMetric.geodesic {n : ℕ} :
    GraphArray n → GraphArray n → Except String (ℝ → GraphArrayR n)
  | .single A, .single B => .ok (fun t => .single (lineSeg A B t))
  | .single A, .batch Bs => .ok (fun t => .batch (Bs.map fun b => lineSeg A b t))
  | .batch As, .single B => .ok (fun t => .batch (As.map fun a => lineSeg a B t))
  | .batch As, .batch Bs =>
    if As.length = Bs.length then
      .ok (fun t => .batch ((As.zip Bs).map fun x => lineSeg x.1 x.2 t))
    else .error "ValueError: operands could not be broadcast together"

/-- `GraphSpaceGeometry.geodesic`: selects the matcher directly on
`(base_point, end_point)` — it performs no rank comparison and never swaps
the two inputs — then permutes `end_point` by the matching result and
delegates to the total-space metric's geodesic. -/
noncomputable def GraphSpaceGeometry.geodesic {n : ℕ} (qa : QaSolver n)
    (base_point end_point : GraphArray n) (matcher : String) :
    Except String (ℝ → GraphArrayR n) :=
  match GraphSpaceGeometry.selectMatcher qa matcher base_point end_point with
  | .error e => .error e
  | .ok perm =>
    match GraphSpace.permute n end_point perm with
    | .error e => .error e
    | .ok permuted => MatricesMetric.geodesic base_point permuted

/-- Whether a fallible computation completed without raising: `true` on
`Except.ok`, `false` on `Except.error`. -/
def exceptOk {ε α : Type _} : Except ε α → Bool
  | .ok _ => true
  | .error _ => false

/-- Modelled from the spec: the composition `compose(p, q)` of two index
sequences, "applying `p` and then relabelling by `q`" (§8): the sequence
whose entry `i` is `p[q[i]]`. -/
def composePerm {n : ℕ} (p q : Fin n → Fin n) : Fin n → Fin n :=
  fun i => p (q i)

theorem permMatrix_mul {n : ℕ} (G : Mat n) (p : Fin n → Fin n) :
    permMatrix p * G = G.submatrix p id := by
  ext i j
  simp [Matrix.mul_apply, permMatrix, Matrix.submatrix_apply]

theorem mul_permMatrix_transpose {n : ℕ} (G : Mat n) (p : Fin n → Fin n) :
    G * (permMatrix p)ᵀ = G.submatrix id p := by
  ext i j
  simp [Matrix.mul_apply, permMatrix, Matrix.transpose_apply,
    Matrix.submatrix_apply]

theorem permConj {n : ℕ} (G : Mat n) (p : Fin n → Fin n) :
    Matrices.mul (permMatrix p) G (permMatrix p)ᵀ = G.submatrix p p := by
  rw [Matrices.mul, permMatrix_mul, mul_permMatrix_transpose]
  rfl

theorem permuteShortcut_eq_false (n : ℕ) (h : 0 < n) (p : Fin n → Fin n) :
    permuteShortcut n p = false := by
  simp only [permuteShortcut, decide_eq_false_iff_not]
  intro hall
  exact (p ⟨0, h⟩).isLt.ne (hall ⟨0, h⟩)

theorem permuteSingle_eq_submatrix (n : ℕ) (h : 0 < n) (G : Mat n)
    (p : Fin n → Fin n) :
    permuteSingle n G p = G.submatrix p p := by
  rw [permuteSingle, permuteShortcut_eq_false n h p]
  simpa using permConj G p

theorem mat_zero_nodes_eq (G H : Mat 0) : G = H := by
  ext i j
  exact i.elim0

theorem permuteSingle_idSeq (n : ℕ) (G : Mat n) :
    permuteSingle n G (idSeq n) = G := by
  rcases Nat.eq_zero_or_pos n with hn | hn
  · subst hn
    exact mat_zero_nodes_eq _ _
  · rw [permuteSingle_eq_submatrix n hn]
    rfl

theorem permute_fixture_value :
    permuteSingle 3 !![0,1,0; 0,0,1; 0,0,0] ![1,2,0] =
      !![0,1,0; 0,0,0; 1,0,0] := by
  rw [permuteSingle_eq_submatrix 3 (by norm_num)]
  ext i j
  fin_cases i <;> fin_cases j <;> rfl

/-- C1: for nodes=3, `G = [[0,1,0],[0,0,1],[0,0,0]]` and `p = [1,2,0]`,
`GraphSpace.permute` does NOT return `[[0,0,1],[0,0,0],[1,0,0]]`: the code
computes `P·G·Pᵗ` with ones of `P` at `(i, p[i])`, whose entry `(i,j)` is
`G[p[i]][p[j]]`, and the fixture of the spec does not match it (they differ
at entry `(0,1)`). -/
theorem c1_permute_fixture_counterexample :
    GraphSpace.permute 3 (.single !![0,1,0; 0,0,1; 0,0,0])
        (.single ![1,2,0]) ≠
      .ok (.single !![0,0,1; 0,0,0; 1,0,0]) := by
  simp only [GraphSpace.permute, permute_fixture_value]
  intro h
  injection h with h1
  injection h1 with h2
  have h3 : (!![0,1,0; 0,0,0; 1,0,0] : Mat 3) 0 1 =
      (!![0,0,1; 0,0,0; 1,0,0] : Mat 3) 0 1 := by rw [h2]
  simp at h3

/-- C1 (amended): for nodes=3, the graph `G = [[0,1,0],[0,0,1],[0,0,0]]`
and the permutation `p = [1,2,0]`, `GraphSpace.permute(G, p)` returns
exactly the matrix `[[0,1,0],[0,0,0],[1,0,0]]`. -/
theorem c1_permute_fixture :
    GraphSpace.permute 3 (.single !![0,1,0; 0,0,1; 0,0,0])
        (.single ![1,2,0]) =
      .ok (.single !![0,1,0; 0,0,0; 1,0,0]) := by
  simp only [GraphSpace.permute, permute_fixture_value]

/-- C3: the identity-permutation fast path is NOT what returns the input:
the shortcut test compares the permutation entries with the scalar node
count, and it fails on the identity sequence `[0,1,2]` for nodes=3. -/
theorem c3_identity_shortcut_counterexample :
    permuteShortcut 3 (idSeq 3) = false := by
  decide

/-- C3 (amended): for every single (rank-2) graph `G` on `n` nodes,
`GraphSpace.permute(G, [0,1,...,n-1])` returns a matrix equal to `G`
(exactly, in exact arithmetic) — but it is computed by conjugation with the
identity permutation matrix, because the shortcut branch compares the
permutation entries with the scalar `nodes` and is not taken. -/
theorem c3_permute_identity_noop (n : ℕ) (G : Mat n) :
    GraphSpace.permute n (.single G) (.single (idSeq n)) =
      .ok (.single G) := by
  rw [GraphSpace.permute, permuteSingle_idSeq]

/-- C7: for every graph `G` on `n` nodes and all permutations `p`, `q` of
`{0,...,n-1}`, `permute(permute(G, p), q)` equals
`permute(G, compose(p, q))`, where `compose(p, q)[i] = p[q[i]]` — the
group-action composition law, exact over the rationals. -/
theorem c7_permute_group_action (n : ℕ) (G : Mat n)
    (p q : Equiv.Perm (Fin n)) :
    permuteSingle n (permuteSingle n G ⇑p) ⇑q =
      permuteSingle n G (composePerm ⇑p ⇑q) := by
  rcases Nat.eq_zero_or_pos n with hn | hn
  · subst hn
    exact mat_zero_nodes_eq _ _
  · rw [permuteSingle_eq_submatrix n hn, permuteSingle_eq_submatrix n hn,
      permuteSingle_eq_submatrix n hn, Matrix.submatrix_submatrix]
    rfl

/-- C10: for every space with at least two nodes, every permutation `p` of
`{0,...,nodes-1}` (the identity included) and every graph, the shortcut
condition of `permute` — which tests whether every entry of `p` equals the
scalar `nodes` — is false, so `permute` always builds the 0/1 permutation
matrix and returns the product `P·G·Pᵗ`. -/
theorem c10_shortcut_never_taken (n : ℕ) (h : 2 ≤ n)
    (p : Equiv.Perm (Fin n)) (G : Mat n) :
    permuteShortcut n ⇑p = false ∧
      permuteSingle n G ⇑p =
        Matrices.mul (permMatrix ⇑p) G (permMatrix ⇑p)ᵀ := by
  have hf := permuteShortcut_eq_false n (by omega) ⇑p
  refine ⟨hf, ?_⟩
  rw [permuteSingle, hf]
  simp

/-- Witness for C10 at nodes=2, the identity permutation and a concrete
graph. -/
theorem c10_shortcut_never_taken_witness :
    permuteShortcut 2 ⇑(Equiv.refl (Fin 2)) = false ∧
      permuteSingle 2 !![1,2; 3,4] ⇑(Equiv.refl (Fin 2)) =
        Matrices.mul (permMatrix ⇑(Equiv.refl (Fin 2))) !![1,2; 3,4]
          (permMatrix ⇑(Equiv.refl (Fin 2)))ᵀ :=
  c10_shortcut_never_taken 2 (by decide) (Equiv.refl (Fin 2)) !![1,2; 3,4]

theorem permuteList_eq (n : ℕ) (Gs : List (Mat n))
    (ps : List (Fin n → Fin n)) :
    permuteList n Gs ps =
      if ps.length ≤ Gs.length then
        .ok ((Gs.zip ps).map fun x => permuteSingle n x.1 x.2)
      else .error "IndexError: list index out of range" := by
  induction ps generalizing Gs with
  | nil => simp [permuteList]
  | cons p ps ih =>
    cases Gs with
    | nil => simp [permuteList]
    | cons g gs =>
      rw [permuteList, ih gs]
      by_cases h : ps.length ≤ gs.length
      · rw [if_pos h, if_pos (by simpa using h)]
        rfl
      · rw [if_neg h, if_neg (by simpa using h)]

/-- C5: `GraphSpace.permute` does NOT fail on mismatched batch lengths: for
two graphs and a single-element list of permutations it silently returns a
partial, one-element result instead of raising a usage error. -/
theorem c5_length_mismatch_counterexample :
    GraphSpace.permute 2 (.batch [!![0,1; 0,0], !![0,0; 1,0]])
        (.batch [idSeq 2]) =
      .ok (.batch [!![0,1; 0,0]]) := by
  simp [GraphSpace.permute, permuteList, permuteSingle_idSeq]

/-- C5 (amended): `GraphSpace.permute` does not validate the batch lengths:
when the list of permutations has length `m ≤ k` it silently returns the
(possibly partial) results for the first `m` graphs only, and when `m > k`
it fails with an `IndexError` from indexing the graph batch, which does not
name a length constraint. -/
theorem c5_permute_length_mismatch (n : ℕ) (Gs : List (Mat n))
    (ps : List (Fin n → Fin n)) :
    GraphSpace.permute n (.batch Gs) (.batch ps) =
      if ps.length ≤ Gs.length then
        .ok (.batch ((Gs.zip ps).map fun x => permuteSingle n x.1 x.2))
      else .error "IndexError: list index out of range" := by
  rw [GraphSpace.permute, permuteList_eq]
  by_cases h : ps.length ≤ Gs.length
  · rw [if_pos h, if_pos h]
  · rw [if_neg h, if_neg h]

/-- C4: for every matcher name other than "ID" and "FAQ", both `dist` and
`geodesic` fail with the error raised by the first use of the never-assigned
`perm` variable, before any matching, permutation or metric computation is
performed (the error is the same for every input, so nothing is silently
defaulted). -/
theorem c4_unknown_matcher (n : ℕ) (qa : QaSolver n) (a b : GraphArray n)
    (matcher : String) (h1 : matcher ≠ "FAQ") (h2 : matcher ≠ "ID") :
    GraphSpaceGeometry.dist qa a b matcher =
        .error "UnboundLocalError: local variable referenced before assignment" ∧
      GraphSpaceGeometry.geodesic qa a b matcher =
        .error "UnboundLocalError: local variable referenced before assignment" := by
  constructor
  · simp [GraphSpaceGeometry.dist, GraphSpaceGeometry.selectMatcher, h1, h2]
  · simp [GraphSpaceGeometry.geodesic, GraphSpaceGeometry.selectMatcher, h1, h2]

/-- Witness for C4 at the concrete unknown matcher name "QAP". -/
theorem c4_unknown_matcher_witness :
    ("QAP" ≠ "FAQ") ∧ ("QAP" ≠ "ID") ∧
      (GraphSpaceGeometry.dist (n := 1) (fun _ _ => id) (.single 0)
          (.single 0) "QAP" =
          .error "UnboundLocalError: local variable referenced before assignment" ∧
        GraphSpaceGeometry.geodesic (n := 1) (fun _ _ => id) (.single 0)
          (.single 0) "QAP" =
          .error "UnboundLocalError: local variable referenced before assignment") :=
  ⟨by decide, by decide,
    c4_unknown_matcher 1 (fun _ _ => id) (.single 0) (.single 0) "QAP"
      (by decide) (by decide)⟩

/-- C2: `geodesic` does NOT perform the rank-based swap that `dist`
performs: on a batched `base_point` and a single `end_point` with the "ID"
matcher, `geodesic` raises the matcher's usage error, while `dist` on the
very same inputs succeeds. -/
theorem c2_geodesic_no_swap_counterexample :
    GraphSpaceGeometry.geodesic (n := 2) (fun _ _ => id)
        (.batch [!![0,1; 0,0]]) (.single !![0,0; 1,0]) "ID" =
        .error "ValueError: The method can align a set of graphs to one graphs,but the single graphs should be passed as base_graph" ∧
      exceptOk (GraphSpaceGeometry.dist (n := 2) (fun _ _ => id)
        (.batch [!![0,1; 0,0]]) (.single !![0,0; 1,0]) "ID") = true := by
  exact ⟨rfl, rfl⟩

/-- C2 (amended): `geodesic` matches `base_point` directly against
`end_point` with no rank comparison: a batched base with a single end point
raises the matcher's usage error (for both matchers) instead of being
broadcast, and in the single-single case it matches, permutes `end_point`,
and delegates to the total-space metric's geodesic between `base_point` and
the permuted `end_point`. -/
theorem c2_geodesic_alignment (n : ℕ) (qa : QaSolver n) :
    (∀ (As : List (Mat n)) (B : Mat n),
      GraphSpaceGeometry.geodesic qa (.batch As) (.single B) "ID" =
        .error "ValueError: The method can align a set of graphs to one graphs,but the single graphs should be passed as base_graph") ∧
    (∀ (As : List (Mat n)) (B : Mat n),
      GraphSpaceGeometry.geodesic qa (.batch As) (.single B) "FAQ" =
        .error "ValueError: Align a set of graphs to one graphs,Pass the single graphs as base_graph") ∧
    (∀ (G B : Mat n),
      GraphSpaceGeometry.geodesic qa (.single G) (.single B) "ID" =
        .ok (fun t => .single (lineSeg G (permuteSingle n B (idSeq n)) t))) ∧
    (∀ (G B : Mat n),
      GraphSpaceGeometry.geodesic qa (.single G) (.single B) "FAQ" =
        .ok (fun t => .single (lineSeg G (permuteSingle n B (qa G B)) t))) := by
  refine ⟨fun As B => ?_, fun As B => ?_, fun G B => ?_, fun G B => ?_⟩ <;>
    rfl

theorem permuteList_map_perm (n : ℕ) (f : Mat n → (Fin n → Fin n))
    (Gs : List (Mat n)) :
    permuteList n Gs (Gs.map f) =
      .ok (Gs.map fun g => permuteSingle n g (f g)) := by
  induction Gs with
  | nil => rfl
  | cons g gs ih =>
    rw [List.map_cons, permuteList, ih]
    rfl

theorem permuteList_replicate_id (n : ℕ) (Gs : List (Mat n)) :
    permuteList n Gs (List.replicate Gs.length (idSeq n)) = .ok Gs := by
  rw [← List.map_const' Gs (idSeq n), permuteList_map_perm]
  simp [permuteSingle_idSeq]

/-- C6: for every single graph `G` and every batch `Bs` of graphs, `dist`
returns a vector with one entry per batch element, and its entry for `b`
is exactly the scalar `dist(G, b)` computes on the pair individually, for
both the "ID" and the "FAQ" matcher (the latter for every solver `qa`). -/
theorem c6_dist_broadcast (n : ℕ) (qa : QaSolver n) (G : Mat n)
    (Bs : List (Mat n)) :
    (GraphSpaceGeometry.dist qa (.single G) (.batch Bs) "ID" =
        .ok (.vec (Bs.map fun b => frobDist G b))) ∧
      (∀ b : Mat n,
        GraphSpaceGeometry.dist qa (.single G) (.single b) "ID" =
          .ok (.scalar (frobDist G b))) ∧
      (GraphSpaceGeometry.dist qa (.single G) (.batch Bs) "FAQ" =
        .ok (.vec (Bs.map fun b =>
          frobDist G (permuteSingle n b (qa G b))))) ∧
      (∀ b : Mat n,
        GraphSpaceGeometry.dist qa (.single G) (.single b) "FAQ" =
          .ok (.scalar (frobDist G (permuteSingle n b (qa G b))))) ∧
      (Bs.map fun b => frobDist G b).length = Bs.length := by
  refine ⟨?_, fun b => ?_, ?_, fun b => ?_, by simp⟩
  · simp [GraphSpaceGeometry.dist, GraphArray.ndim,
      GraphSpaceGeometry.selectMatcher, GraphSpaceGeometry.id_matching,
      GraphSpace.permute, permuteList_replicate_id, MatricesMetric.dist]
  · simp [GraphSpaceGeometry.dist, GraphArray.ndim,
      GraphSpaceGeometry.selectMatcher, GraphSpaceGeometry.id_matching,
      GraphSpace.permute, MatricesMetric.dist, permuteSingle_idSeq]
  · simp [GraphSpaceGeometry.dist, GraphArray.ndim,
      GraphSpaceGeometry.selectMatcher, GraphSpaceGeometry.faq_matching,
      GraphSpace.permute, permuteList_map_perm, MatricesMetric.dist,
      List.map_map, Function.comp]
  · simp [GraphSpaceGeometry.dist, GraphArray.ndim,
      GraphSpaceGeometry.selectMatcher, GraphSpaceGeometry.faq_matching,
      GraphSpace.permute, MatricesMetric.dist]

theorem frobDist_self (n : ℕ) (G : Mat n) : frobDist G G = 0 := by
  simp [frobDist]

/-- C8: for every graph `G` of the space's node count,
`dist(G, G, matcher="ID")` is exactly zero: the identity matching leaves
`G` in place (up to conjugation by the identity permutation matrix) and the
Frobenius distance of `G` to itself vanishes. -/
theorem c8_dist_self_zero (n : ℕ) (qa : QaSolver n) (G : Mat n) :
    GraphSpaceGeometry.dist qa (.single G) (.single G) "ID" =
      .ok (.scalar 0) := by
  simp [GraphSpaceGeometry.dist, GraphArray.ndim,
    GraphSpaceGeometry.selectMatcher, GraphSpaceGeometry.id_matching,
    GraphSpace.permute, MatricesMetric.dist, permuteSingle_idSeq,
    frobDist_self]

/-- C9: every matrix accepted by `GraphSpace.belongs` is an `n × n`
adjacency matrix, and its image under the permutation action is again
accepted by `GraphSpace.belongs`: the action preserves membership in the
total space. -/
theorem c9_permute_preserves_belongs (n : ℕ) (M : RawMat)
    (h1 : M.rows = n) (h2 : M.cols = n) (p : Equiv.Perm (Fin n)) :
    GraphSpace.belongs n M = true ∧
      GraphSpace.belongs n
        (Mat.toRaw (permuteSingle n (M.toMat n h1 h2) ⇑p)) = true := by
  constructor <;>
    simp [GraphSpace.belongs, Matrices.belongs, Mat.toRaw, h1, h2]

/-- Witness for C9 at a concrete 2-node graph and the transposition of its
two nodes. -/
theorem c9_permute_preserves_belongs_witness :
    GraphSpace.belongs 2 ⟨2, 2, !![0,1; 0,0]⟩ = true ∧
      GraphSpace.belongs 2
        (Mat.toRaw (permuteSingle 2
          ((⟨2, 2, !![0,1; 0,0]⟩ : RawMat).toMat 2 rfl rfl)
          ⇑(Equiv.swap (0 : Fin 2) 1))) = true :=
  c9_permute_preserves_belongs 2 ⟨2, 2, !![0,1; 0,0]⟩ rfl rfl
    (Equiv.swap 0 1)
